import Mathlib

/-!
Verification of the obsidian-random-wikipedia plugin core (the full plugin
variant in the repository: settings record, heading extractor
`parseWikipediaHtml`, acquisition loop `fetchAndProcessRandomWikipediaArticle`,
and renderer `formatMarkdown`).

The embedding is shallow:

* The DOM layer (DOMParser / querySelector) is an external collaborator.  A
  parsed HTML document is modelled post-DOM as `HtmlDoc`: the optional
  `.mw-parser-output` region together with the whole-document fallback, each
  given as the ordered list of `h2`/`h3`/`h4` elements the corresponding
  `querySelectorAll('h2, h3, h4')` returns.  A heading element carries its
  numeric level (`parseInt(tagName.substring(1))` yields 2, 3 or 4 for those
  selectors) and its text content as an ordered list of text pieces, each
  piece either ordinary text or text living inside a `span.mw-editsection`
  (the edit affordance that `querySelector('.mw-editsection')` finds and
  `remove()` deletes).

* The two network calls of one attempt of the acquisition loop are an
  external collaborator; one attempt's combined outcome is an
  `AttemptOutcome`: failure before the title was obtained, failure after the
  title was obtained but before the article markup was obtained (the code
  has already assigned `articleTitle`/`articleLink` at that point), or a
  fully fetched title plus markup.  A whole run is driven by a stream
  `outcomes : Nat -> AttemptOutcome` giving the outcome of the attempt
  started while the retry counter equals the index.  Thrown JS errors are
  modelled as `Except.error`; the `try`/`catch` of the loop body is the
  explicit match on that value.

* `Notice` displays and the fixed 500 ms retry delay are recorded as an
  `Event` trace; the number of loop-body executions (fetch-stage
  invocations) is returned alongside.

* `window.moment()` timestamps are external inputs (`today`,
  `currentDateTime`).
-/

namespace RandomWiki

/-- Mirrors the TS interface `ParsedHeader { level: number; text: string }`. -/
structure ParsedHeader where
  level : Nat
  text : String
deriving Repr, DecidableEq

/-- Mirrors `RandomWikipediaArticleSettings` (the configurable plugin
settings record). -/
structure RandomWikipediaArticleSettings where
  minHeaders : Nat
  maxRetries : Nat
  disallowedHeaders : String
  noteFolder : String
deriving Repr, DecidableEq

/-- One text piece of a heading element's content: either ordinary text or
text contained in the element's `span.mw-editsection` child. -/
inductive ContentPart where
  | text (s : String)
  | editSection (s : String)
deriving Repr, DecidableEq

/-- The text a content piece contributes to `textContent`. -/
def partText : ContentPart → String
  | ContentPart.text s => s
  | ContentPart.editSection s => s

/-- Whether a content piece is (inside) the edit-affordance span. -/
def isEditPart : ContentPart → Bool
  | ContentPart.text _ => false
  | ContentPart.editSection _ => true

/-- A `h2`/`h3`/`h4` element as returned by `querySelectorAll('h2, h3, h4')`:
its numeric level and its ordered content pieces. -/
structure HeadingElement where
  level : Nat
  parts : List ContentPart
deriving Repr, DecidableEq

/-- A parsed HTML document, post-DOM: the heading elements of the
`.mw-parser-output` region when that region exists, and the heading elements
of the whole document (the fallback used when the region is absent). -/
structure HtmlDoc where
  parserOutput : Option (List HeadingElement)
  allHeadings : List HeadingElement
deriving Repr, DecidableEq

/-- DOM `textContent` of a list of content pieces: their concatenated text,
in document order. -/
def textContent (ps : List ContentPart) : String :=
  ps.foldl (fun acc p => acc ++ partText p) ""

/-- The whitespace characters stripped by `trim`: space, tab, line feed and
carriage return. -/
def charIsWhitespace (c : Char) : Bool :=
  c == Char.ofNat 32 || c == Char.ofNat 9 || c == Char.ofNat 10 ||
    c == Char.ofNat 13

/-- Drop leading whitespace characters. -/
def dropLeadingWhitespace : List Char → List Char
  | [] => []
  | c :: cs =>
    if charIsWhitespace c then dropLeadingWhitespace cs else c :: cs

/-- Model of JS `String.prototype.trim`: strip leading and trailing
whitespace. -/
def strTrim (s : String) : String :=
  String.mk
    (List.reverse (dropLeadingWhitespace
      (List.reverse (dropLeadingWhitespace s.data))))

/-- Model of JS `String.prototype.toLowerCase` on one character (ASCII
range, which is all the configured exclusion entries use). -/
def charToLower (c : Char) : Char :=
  if 65 ≤ c.toNat && c.toNat ≤ 90 then Char.ofNat (c.toNat + 32) else c

/-- Model of JS `String.prototype.toLowerCase`. -/
def strToLower (s : String) : String :=
  String.mk (s.data.map charToLower)

/-- Model of JS `split(',')` on the character list: every comma starts a new
segment; the empty string yields one empty segment. -/
def splitCommaAux : List Char → List (List Char)
  | [] => [[]]
  | c :: cs =>
    if c = Char.ofNat 44 then [] :: splitCommaAux cs
    else
      match splitCommaAux cs with
      | [] => [[c]]
      | l :: ls => (c :: l) :: ls

/-- `querySelector('.mw-editsection')` finds a node iff some piece is inside
an edit-affordance span. -/
def hasEditSpan (ps : List ContentPart) : Bool :=
  ps.any isEditPart

/-- Effect of `editSpan.remove()`: the first edit-affordance span (the node
`querySelector` returns) disappears from the element's content. -/
def removeFirstEditSpan : List ContentPart → List ContentPart
  | [] => []
  | p :: ps => if isEditPart p then ps else p :: removeFirstEditSpan ps

/-- The heading text the extractor computes for one element, mirroring:
`let text = headingEl.textContent?.trim() || '';` then, when an edit span is
present, `editSpan.remove(); text = headingEl.textContent?.trim() || '';`.
The first assignment is overwritten in that case, so the net result is the
trimmed text content with the first edit span removed when one exists. -/
def headingText (headingEl : HeadingElement) : String :=
  if hasEditSpan headingEl.parts then
    strTrim (textContent (removeFirstEditSpan headingEl.parts))
  else
    strTrim (textContent headingEl.parts)

/-- Mirrors `getProcessedDisallowedHeaders`: split the configured string on
commas, trim each entry, drop empty entries, lower-case the rest. -/
def getProcessedDisallowedHeaders (disallowedHeaders : String) : List String :=
  ((((splitCommaAux disallowedHeaders.data).map
      (fun l => String.mk l)).map strTrim).filter
    (fun h => h.length > 0)).map strToLower

/-- The body of the `headingElements.forEach` callback of
`parseWikipediaHtml`: drop the heading when its lower-cased text is
disallowed, drop it when an already-accepted heading has the same
`(level, text)` pair, otherwise push it. -/
def addParsedHeader (processedDisallowedHeaders : List String)
    (headers : List ParsedHeader) (headingEl : HeadingElement) :
    List ParsedHeader :=
  let level := headingEl.level
  let text := headingText headingEl
  if processedDisallowedHeaders.contains (strToLower text) then
    headers
  else if headers.any (fun h => h.text == text && h.level == level) then
    headers
  else
    headers ++ [{ level := level, text := text }]

/-- Mirrors `parseWikipediaHtml`: iterate over the heading elements of the
`.mw-parser-output` region (falling back to the whole document), applying
the exclusion and deduplication rules in document order. -/
def parseWikipediaHtml (disallowedHeaders : String) (doc : HtmlDoc) :
    List ParsedHeader :=
  let headingElements :=
    match doc.parserOutput with
    | some els => els
    | none => doc.allHeadings
  headingElements.foldl
    (addParsedHeader (getProcessedDisallowedHeaders disallowedHeaders)) []

/-- Upper-case hexadecimal digit, as produced by JS percent-encoding. -/
def toHexDigit (n : Nat) : Char :=
  if n < 10 then Char.ofNat (48 + n) else Char.ofNat (55 + n)

/-- UTF-8 bytes of a character (code points below 0x110000). -/
def utf8Bytes (c : Char) : List Nat :=
  let n := c.toNat
  if n < 128 then [n]
  else if n < 2048 then [192 + n / 64, 128 + n % 64]
  else if n < 65536 then [224 + n / 4096, 128 + (n / 64) % 64, 128 + n % 64]
  else [240 + n / 262144, 128 + (n / 4096) % 64, 128 + (n / 64) % 64, 128 + n % 64]

/-- The characters `encodeURIComponent` leaves unescaped besides ASCII
letters and digits: minus, underscore, dot, bang, tilde, star, the two
parentheses and the apostrophe (code 39). -/
def isURIUnescaped (c : Char) : Bool :=
  (65 ≤ c.toNat && c.toNat ≤ 90) || (97 ≤ c.toNat && c.toNat ≤ 122) ||
  (48 ≤ c.toNat && c.toNat ≤ 57) ||
  [Char.ofNat 45, Char.ofNat 95, Char.ofNat 46, Char.ofNat 33, Char.ofNat 126,
   Char.ofNat 42, Char.ofNat 39, Char.ofNat 40, Char.ofNat 41].contains c

/-- Percent-encoding of one character: each UTF-8 byte as `%XY`. -/
def percentEncodeChar (c : Char) : String :=
  String.mk ((utf8Bytes c).foldr
    (fun b acc => Char.ofNat 37 :: toHexDigit (b / 16) :: toHexDigit (b % 16) :: acc) [])

/-- Model of JS `encodeURIComponent`. -/
def encodeURIComponent (s : String) : String :=
  s.data.foldl
    (fun acc c => acc ++ (if isURIUnescaped c then String.mk [c] else percentEncodeChar c)) ""

/-- The article link the loop builds from a fetched title. -/
def wikiArticleLink (title : String) : String :=
  "https://en.wikipedia.org/wiki/" ++ encodeURIComponent title

/-- The record `fetchAndProcessRandomWikipediaArticle` resolves with on
success.  `dateStamp` mirrors the source field holding the
`moment().format("YYYY-MM-DD")` date stamped at acceptance time. -/
structure ArticleData where
  title : String
  link : String
  headers : List ParsedHeader
  dateStamp : String
deriving Repr, DecidableEq

/-- The combined outcome of the network stage of one attempt:
* `titleFetchFailed`: the random-title call threw (network failure,
  non-success status, or unparsable JSON) before `articleTitle` was
  assigned;
* `htmlFetchFailed`: the title was obtained (so `articleTitle` and
  `articleLink` were assigned) but the markup call threw;
* `fetched`: both calls completed; `doc` is the DOM parse of
  `apiData?.parse?.text || ''`. -/
inductive AttemptOutcome where
  | titleFetchFailed (err : String)
  | htmlFetchFailed (title : String) (err : String)
  | fetched (title : String) (doc : HtmlDoc)
deriving Repr, DecidableEq

/-- Whether an attempt outcome makes the loop body throw. -/
def isFailedOutcome : AttemptOutcome → Bool
  | AttemptOutcome.titleFetchFailed _ => true
  | AttemptOutcome.htmlFetchFailed _ _ => true
  | AttemptOutcome.fetched _ _ => false

/-- Observable side effects of the loop, in order of occurrence:
`Notice` displays and the fixed 500 ms delay after a failed attempt. -/
inductive Event where
  | fetchingNotice (attempt : Nat)
  | parseFailedNotice (attempt : Nat)
  | retryDelay
  | exhaustedNotice (maxRetries : Nat)
deriving Repr, DecidableEq

def isFetchingNotice : Event → Bool
  | Event.fetchingNotice _ => true
  | _ => false

def isParseFailedNotice : Event → Bool
  | Event.parseFailedNotice _ => true
  | _ => false

/-- The mutable locals of `fetchAndProcessRandomWikipediaArticle` that
persist across attempts. -/
structure LoopState where
  articleTitle : String
  articleLink : String
  articleHtml : HtmlDoc
  parsedHeaders : List ParsedHeader
deriving Repr, DecidableEq

/-- The `try` block of one attempt up to and including the
`parseWikipediaHtml` call: returns the locals as left by the attempt and
either the parsed headers or the thrown error.  A failure after the title
was fetched still overwrites `articleTitle`/`articleLink` (the source
assigns them before the second call). -/
def tryBody (s : RandomWikipediaArticleSettings) (o : AttemptOutcome)
    (st : LoopState) : LoopState × Except String (List ParsedHeader) :=
  match o with
  | AttemptOutcome.titleFetchFailed err => (st, Except.error err)
  | AttemptOutcome.htmlFetchFailed title err =>
      ({ st with articleTitle := title, articleLink := wikiArticleLink title },
       Except.error err)
  | AttemptOutcome.fetched title doc =>
      let parsedHeaders := parseWikipediaHtml s.disallowedHeaders doc
      ({ articleTitle := title, articleLink := wikiArticleLink title,
         articleHtml := doc, parsedHeaders := parsedHeaders },
       Except.ok parsedHeaders)

/-- The `while (!foundSuitableArticle && retries < maxRetries)` loop.
`fuel` is `maxRetries - retries`, so the guard `retries < maxRetries` is
exactly `fuel > 0`; `retries` is the current retry counter (also the index
into the outcome stream, since every continuing branch increments it).
Returns the accepted locals (or `none` after exhaustion, together with the
terminal error notice), the event trace, and the number of loop-body
executions, i.e. of fetch-stage invocations.  The codomain is `Except`: a
JS error not absorbed by the `catch` would surface as `Except.error`. -/
def loopAux (s : RandomWikipediaArticleSettings)
    (outcomes : Nat → AttemptOutcome) :
    Nat → Nat → LoopState → Except String (Option LoopState × List Event × Nat)
  | 0, _, _ => Except.ok (none, [Event.exhaustedNotice s.maxRetries], 0)
  | fuel + 1, retries, st =>
    match tryBody s (outcomes retries) st with
    | (st2, Except.error _) =>
        match loopAux s outcomes fuel (retries + 1) st2 with
        | Except.ok (r, evs, n) =>
            Except.ok (r, Event.fetchingNotice (retries + 1) ::
              Event.parseFailedNotice (retries + 1) :: Event.retryDelay :: evs, n + 1)
        | Except.error e => Except.error e
    | (st2, Except.ok parsedHeaders) =>
        if s.minHeaders ≤ parsedHeaders.length then
          Except.ok (some st2, [Event.fetchingNotice (retries + 1)], 1)
        else
          match loopAux s outcomes fuel (retries + 1) st2 with
          | Except.ok (r, evs, n) =>
              Except.ok (r, Event.fetchingNotice (retries + 1) :: evs, n + 1)
          | Except.error e => Except.error e

/-- Mirrors `fetchAndProcessRandomWikipediaArticle`: run the retry loop from
fresh locals and, on success, resolve with the article record stamped with
`today` (the acceptance-time `YYYY-MM-DD` date). -/
def fetchAndProcessRandomWikipediaArticle (s : RandomWikipediaArticleSettings)
    (outcomes : Nat → AttemptOutcome) (today : String) :
    Except String (Option ArticleData × List Event × Nat) :=
  match loopAux s outcomes s.maxRetries 0
      { articleTitle := "", articleLink := "",
        articleHtml := { parserOutput := none, allHeadings := [] },
        parsedHeaders := [] } with
  | Except.ok (some st, evs, n) =>
      Except.ok
        (some { title := st.articleTitle
                link := st.articleLink
                headers := st.parsedHeaders
                dateStamp := today },
         evs, n)
  | Except.ok (none, evs, n) => Except.ok (none, evs, n)
  | Except.error e => Except.error e

instance {ε α : Type} [DecidableEq ε] [DecidableEq α] :
    DecidableEq (Except ε α) := fun a b =>
  match a, b with
  | Except.error e1, Except.error e2 =>
      if h : e1 = e2 then isTrue (by rw [h]) else isFalse (by simp [h])
  | Except.error _, Except.ok _ => isFalse (by simp)
  | Except.ok _, Except.error _ => isFalse (by simp)
  | Except.ok v1, Except.ok v2 =>
      if h : v1 = v2 then isTrue (by rw [h]) else isFalse (by simp [h])

/-- `'#'.repeat(n)`. -/
def hashMarker (n : Nat) : String :=
  String.mk (List.replicate n (Char.ofNat 35))

/-- The `headers.forEach` accumulation of `formatMarkdown`: starting from
the current `headersMarkdown` value, append one marker-of-length-`level`
heading line plus a blank line per record. -/
def headerLinesBlock (headers : List ParsedHeader) (acc : String) : String :=
  headers.foldl
    (fun acc header =>
      acc ++ hashMarker header.level ++ " " ++ header.text ++ "\n\n") acc

/-- Mirrors `formatMarkdown`: the note body built from the article record
and the externally supplied `moment().format("YYYY-MM-DD HH:mm:ss")`
timestamp.  `headersMarkdown` starts with the `## Sections:` line and is
extended by the `forEach` when the record has headings. -/
def formatMarkdown (articleData : ArticleData) (currentDateTime : String) :
    String :=
  let headersMarkdown :=
    if articleData.headers.length > 0 then
      headerLinesBlock articleData.headers "\n## Sections:\n"
    else
      "\nNo significant sections found for this article.\n\n"
  "---\ntags: wikipedia\n---\n\n" ++ currentDateTime ++
    "\n**Related Topics**:\n**Link**: " ++ articleData.link ++
    "\n# " ++ articleData.title ++ " #wikipedia\n" ++ headersMarkdown ++ "\n"

/-- Splitting a character list at every newline; every string has at least
one line, and a trailing newline yields a trailing empty line (matching how
a text document is read as lines). -/
def chLines : List Char → List (List Char)
  | [] => [[]]
  | c :: cs =>
    if c = Char.ofNat 10 then [] :: chLines cs
    else
      match chLines cs with
      | [] => [[c]]
      | l :: ls => (c :: l) :: ls

/-- The lines of a string. -/
def strLines (s : String) : List String :=
  (chLines s.data).map (fun l => String.mk l)

/-- A line carrying a markdown heading marker: its first character is `#`. -/
def isHeadingLine (l : String) : Bool :=
  match l.data with
  | [] => false
  | c :: _ => c == Char.ofNat 35

/-- Replace the text carried by the first edit-affordance span of a heading
element's content (the node `querySelector('.mw-editsection')` would
return), leaving everything else unchanged.  Used to state that the edit
affordance's text can never influence extraction. -/
def setFirstEditText (s : String) : List ContentPart → List ContentPart
  | [] => []
  | p :: ps =>
    if isEditPart p then ContentPart.editSection s :: ps
    else p :: setFirstEditText s ps

/-- Replace the first edit-span text of one heading element. -/
def setElementEditText (s : String) (e : HeadingElement) : HeadingElement :=
  { level := e.level, parts := setFirstEditText s e.parts }

/-- Replace the first edit-span text of every heading element of a
document. -/
def setDocEditText (s : String) (d : HtmlDoc) : HtmlDoc :=
  { parserOutput := d.parserOutput.map (fun els => els.map (setElementEditText s)),
    allHeadings := d.allHeadings.map (setElementEditText s) }

/-- The event trace produced by `j` consecutive failed attempts whose first
attempt number is `retries + 1`: each failed attempt shows its fetching
notice and its per-attempt error notice, then waits out the fixed delay. -/
def failTrace (retries j : Nat) : List Event :=
  match j with
  | 0 => []
  | j + 1 =>
      Event.fetchingNotice (retries + 1) :: Event.parseFailedNotice (retries + 1) ::
        Event.retryDelay :: failTrace (retries + 1) j

theorem strEq {s t : String} (h : s.data = t.data) : s = t := by
  obtain ⟨a⟩ := s
  obtain ⟨b⟩ := t
  exact congrArg String.mk h

theorem mk_data (s : String) : String.mk s.data = s := by
  obtain ⟨a⟩ := s
  rfl

theorem mk_nil_eq : String.mk [] = "" := rfl

theorem empty_data : ("" : String).data = [] := rfl

theorem str_append_nil (s : String) : s ++ "" = s := by
  obtain ⟨a⟩ := s
  apply strEq
  show a ++ [] = a
  exact List.append_nil a

theorem chLines_nl (ys : List Char) :
    chLines (Char.ofNat 10 :: ys) = [] :: chLines ys := by
  simp [chLines]

theorem chLines_block (xs ys : List Char) (h : Char.ofNat 10 ∉ xs) :
    chLines (xs ++ Char.ofNat 10 :: ys) = xs :: chLines ys := by
  induction xs with
  | nil => simpa using chLines_nl ys
  | cons c cs ih =>
      have hc : ¬ c = Char.ofNat 10 := by
        intro hh
        exact h (by simp [hh])
      have hcs : Char.ofNat 10 ∉ cs := by
        intro hh
        exact h (List.mem_cons_of_mem _ hh)
      simp [chLines, hc, ih hcs]

theorem str_nil_append (s : String) : "" ++ s = s := by
  obtain ⟨a⟩ := s
  rfl

theorem nl_data : ("\n" : String).data = [Char.ofNat 10] := rfl

theorem nl2_data : ("\n\n" : String).data = [Char.ofNat 10, Char.ofNat 10] := rfl

theorem space_data : (" " : String).data = [Char.ofNat 32] := rfl

theorem hashMarker_data (n : Nat) :
    (hashMarker n).data = List.replicate n (Char.ofNat 35) := rfl

theorem nl_not_mem_headerLine (h : ParsedHeader)
    (hh : Char.ofNat 10 ∉ h.text.data) :
    Char.ofNat 10 ∉ (hashMarker h.level ++ " " ++ h.text).data := by
  intro hmem
  have hsplit : Char.ofNat 10 ∈ (hashMarker h.level).data ∨
      Char.ofNat 10 ∈ (" " : String).data ∨ Char.ofNat 10 ∈ h.text.data := by
    simpa [String.data_append, List.mem_append, or_assoc] using hmem
  rcases hsplit with h1 | h2 | h3
  · rw [hashMarker_data] at h1
    exact absurd (List.eq_of_mem_replicate h1) (by decide)
  · rw [space_data] at h2
    exact absurd (List.mem_singleton.mp h2) (by decide)
  · exact hh h3

theorem headerLinesBlock_out (hs : List ParsedHeader) (acc : String) :
    headerLinesBlock hs acc = acc ++ headerLinesBlock hs "" := by
  induction hs generalizing acc with
  | nil => exact (str_append_nil acc).symm
  | cons h tl ih =>
      show headerLinesBlock tl
          (acc ++ hashMarker h.level ++ " " ++ h.text ++ "\n\n") =
        acc ++ headerLinesBlock tl
          ("" ++ hashMarker h.level ++ " " ++ h.text ++ "\n\n")
      rw [ih, ih ("" ++ hashMarker h.level ++ " " ++ h.text ++ "\n\n")]
      apply strEq
      simp [String.data_append, List.append_assoc, empty_data]

theorem map_mk_data (l : List String) : (l.map String.data).map String.mk = l := by
  induction l with
  | nil => rfl
  | cons s tl ih => simp only [List.map_cons, mk_data, ih]

theorem chLines_headerBlocks (hs : List ParsedHeader) (rest : List Char)
    (hH : ∀ h ∈ hs, Char.ofNat 10 ∉ h.text.data) :
    chLines ((headerLinesBlock hs "").data ++ rest)
      = (hs.bind
          (fun h => [hashMarker h.level ++ " " ++ h.text, ""])).map String.data ++
        chLines rest := by
  induction hs generalizing rest with
  | nil =>
      show chLines (("" : String).data ++ rest) = [] ++ chLines rest
      rw [empty_data, List.nil_append, List.nil_append]
  | cons h tl ih =>
      have h1 : headerLinesBlock (h :: tl) "" =
          ("" ++ hashMarker h.level ++ " " ++ h.text ++ "\n\n") ++
            headerLinesBlock tl "" :=
        headerLinesBlock_out tl ("" ++ hashMarker h.level ++ " " ++ h.text ++ "\n\n")
      have h2 : ((headerLinesBlock (h :: tl) "").data ++ rest) =
          (hashMarker h.level ++ " " ++ h.text).data ++
            Char.ofNat 10 :: Char.ofNat 10 ::
              ((headerLinesBlock tl "").data ++ rest) := by
        rw [h1]
        simp [String.data_append, List.append_assoc, empty_data, nl2_data]
      rw [h2, chLines_block _ _ (nl_not_mem_headerLine h (hH h (by simp))),
        chLines_nl, ih rest (fun x hx => hH x (List.mem_cons_of_mem _ hx))]
      simp [empty_data]

theorem strLines_formatMarkdown (a : ArticleData) (dt : String)
    (hT : Char.ofNat 10 ∉ a.title.data) (hL : Char.ofNat 10 ∉ a.link.data)
    (hD : Char.ofNat 10 ∉ dt.data)
    (hH : ∀ h ∈ a.headers, Char.ofNat 10 ∉ h.text.data) :
    strLines (formatMarkdown a dt) =
      ["---", "tags: wikipedia", "---", "", dt, "**Related Topics**:",
       "**Link**: " ++ a.link, "# " ++ a.title ++ " #wikipedia"] ++
      (if a.headers.length > 0 then
        ["", "## Sections:"] ++
          a.headers.bind (fun h => [hashMarker h.level ++ " " ++ h.text, ""]) ++
          ["", ""]
      else
        ["", "No significant sections found for this article.", "", "", ""]) := by
  have hlink : Char.ofNat 10 ∉ ("**Link**: " ++ a.link).data := by
    rw [String.data_append]
    intro hm
    rcases List.mem_append.mp hm with h1 | h2
    · exact absurd h1 (by decide)
    · exact hL h2
  have htitle : Char.ofNat 10 ∉ ("# " ++ a.title ++ " #wikipedia").data := by
    intro hm
    rw [String.data_append, String.data_append] at hm
    rcases List.mem_append.mp hm with h1 | h2
    · rcases List.mem_append.mp h1 with h3 | h4
      · exact absurd h3 (by decide)
      · exact hT h4
    · exact absurd h2 (by decide)
  have e1 : ("---\ntags: wikipedia\n---\n\n" : String).data =
      "---".data ++ Char.ofNat 10 ::
        ("tags: wikipedia".data ++ Char.ofNat 10 ::
          ("---".data ++ Char.ofNat 10 :: [Char.ofNat 10])) := by decide
  have e2 : ("\n**Related Topics**:\n**Link**: " : String).data =
      Char.ofNat 10 ::
        ("**Related Topics**:".data ++ Char.ofNat 10 :: "**Link**: ".data) := by
    decide
  have e3 : ("\n# " : String).data = Char.ofNat 10 :: "# ".data := by decide
  have e4 : (" #wikipedia\n" : String).data =
      " #wikipedia".data ++ [Char.ofNat 10] := by decide
  have hdata : (formatMarkdown a dt).data =
      "---".data ++ Char.ofNat 10 ::
      ("tags: wikipedia".data ++ Char.ofNat 10 ::
      ("---".data ++ Char.ofNat 10 ::
      (Char.ofNat 10 ::
      (dt.data ++ Char.ofNat 10 ::
      ("**Related Topics**:".data ++ Char.ofNat 10 ::
      (("**Link**: " ++ a.link).data ++ Char.ofNat 10 ::
      (("# " ++ a.title ++ " #wikipedia").data ++ Char.ofNat 10 ::
      ((if a.headers.length > 0 then
          headerLinesBlock a.headers "\n## Sections:\n"
        else
          "\nNo significant sections found for this article.\n\n").data ++
        [Char.ofNat 10])))))))) := by
    simp only [formatMarkdown, String.data_append, e1, e2, e3, e4, nl_data,
      List.append_assoc, List.cons_append, List.nil_append]
  unfold strLines
  rw [hdata, chLines_block _ _ (by decide), chLines_block _ _ (by decide),
    chLines_block _ _ (by decide), chLines_nl, chLines_block _ _ hD,
    chLines_block _ _ (by decide), chLines_block _ _ hlink,
    chLines_block _ _ htitle]
  match ha : a.headers with
  | [] =>
      simp only [List.length_nil, gt_iff_lt, lt_self_iff_false, if_false]
      have hrest : chLines
          (("\nNo significant sections found for this article.\n\n" : String).data ++
            [Char.ofNat 10]) =
          [[], "No significant sections found for this article.".data,
            [], [], []] := by decide
      rw [hrest]
      simp only [List.map_cons, List.map_nil, mk_data, mk_nil_eq]
      simp
  | h0 :: tl =>
      rw [ha] at hH
      have hcond : (h0 :: tl).length > 0 := by simp
      rw [if_pos hcond, if_pos hcond]
      have e6 : ("\n## Sections:\n" : String).data =
          Char.ofNat 10 :: ("## Sections:".data ++ [Char.ofNat 10]) := by decide
      have h7 : (headerLinesBlock (h0 :: tl) "\n## Sections:\n").data ++
          [Char.ofNat 10] =
          Char.ofNat 10 ::
            ("## Sections:".data ++ Char.ofNat 10 ::
              ((headerLinesBlock (h0 :: tl) "").data ++ [Char.ofNat 10])) := by
        rw [headerLinesBlock_out (h0 :: tl) "\n## Sections:\n"]
        simp [String.data_append, e6, List.append_assoc]
      rw [h7, chLines_nl, chLines_block _ _ (by decide),
        chLines_headerBlocks (h0 :: tl) [Char.ofNat 10] hH]
      have h8 : chLines [Char.ofNat 10] = [[], []] := by decide
      rw [h8]
      simp only [List.map_cons, List.map_append, map_mk_data, mk_data, mk_nil_eq,
        List.map_nil]
      simp

theorem contains_iff (l : List String) (a : String) :
    l.contains a = true ↔ a ∈ l := by
  simp [List.contains]

theorem addParsedHeader_inv (procd : List String) (acc : List ParsedHeader)
    (e : HeadingElement)
    (h1 : (acc.map (fun h => (h.level, h.text))).Nodup)
    (h2 : ∀ h ∈ acc, strToLower h.text ∉ procd) :
    ((addParsedHeader procd acc e).map (fun h => (h.level, h.text))).Nodup ∧
      ∀ h ∈ addParsedHeader procd acc e, strToLower h.text ∉ procd := by
  unfold addParsedHeader
  cases hcontains : procd.contains (strToLower (headingText e)) with
  | true =>
      rw [if_pos hcontains]
      exact ⟨h1, h2⟩
  | false =>
      have hc2 : ¬ procd.contains (strToLower (headingText e)) = true := by
        rw [hcontains]
        exact Bool.false_ne_true
      rw [if_neg hc2]
      cases hany : acc.any
          (fun h => h.text == headingText e && h.level == e.level) with
      | true =>
          rw [if_pos rfl]
          exact ⟨h1, h2⟩
      | false =>
          rw [if_neg Bool.false_ne_true]
          constructor
          · rw [List.map_append, List.nodup_append]
            refine ⟨h1, by simp, ?_⟩
            intro p hp hq
            simp only [List.map_cons, List.map_nil, List.mem_singleton] at hq
            obtain ⟨h, hh, hpr⟩ := List.mem_map.mp hp
            have hfalse := (List.any_eq_false.mp hany) h hh
            rw [hq] at hpr
            have hlv : h.level = e.level := ((Prod.mk.injEq _ _ _ _).mp hpr).1
            have htx : h.text = headingText e := ((Prod.mk.injEq _ _ _ _).mp hpr).2
            exact hfalse (by simp [hlv, htx])
          · intro h hmem
            rcases List.mem_append.mp hmem with hold | hnew
            · exact h2 h hold
            · have hx : h = { level := e.level, text := headingText e } := by
                simpa using hnew
              subst hx
              intro hin
              have hc3 : procd.contains (strToLower (headingText e)) = true :=
                (contains_iff _ _).mpr hin
              rw [hcontains] at hc3
              exact Bool.false_ne_true hc3

theorem parse_fold_inv (procd : List String) (els : List HeadingElement) :
    ∀ acc : List ParsedHeader,
      (acc.map (fun h => (h.level, h.text))).Nodup →
      (∀ h ∈ acc, strToLower h.text ∉ procd) →
      ((els.foldl (addParsedHeader procd) acc).map
          (fun h => (h.level, h.text))).Nodup ∧
        ∀ h ∈ els.foldl (addParsedHeader procd) acc, strToLower h.text ∉ procd := by
  induction els with
  | nil => intro acc h1 h2; exact ⟨h1, h2⟩
  | cons e tl ih =>
      intro acc h1 h2
      have hstep := addParsedHeader_inv procd acc e h1 h2
      exact ih (addParsedHeader procd acc e) hstep.1 hstep.2

theorem hasEditSpan_setFirst (s : String) (ps : List ContentPart) :
    hasEditSpan (setFirstEditText s ps) = hasEditSpan ps := by
  induction ps with
  | nil => rfl
  | cons p tl ih =>
      cases hp : isEditPart p with
      | true =>
          cases p with
          | text t => simp [isEditPart] at hp
          | editSection t => simp [setFirstEditText, hasEditSpan, isEditPart]
      | false =>
          simp only [setFirstEditText, hp, Bool.false_eq_true, if_false]
          simp only [hasEditSpan, List.any_cons, hp]
          have ih2 : (setFirstEditText s tl).any isEditPart = tl.any isEditPart := ih
          rw [ih2]

theorem removeFirst_setFirst (s : String) (ps : List ContentPart) :
    removeFirstEditSpan (setFirstEditText s ps) = removeFirstEditSpan ps := by
  induction ps with
  | nil => rfl
  | cons p tl ih =>
      cases hp : isEditPart p with
      | true =>
          cases p with
          | text t => simp [isEditPart] at hp
          | editSection t => simp [setFirstEditText, removeFirstEditSpan, isEditPart]
      | false => simp [setFirstEditText, hp, removeFirstEditSpan, ih]

theorem setFirst_no_edit (s : String) (ps : List ContentPart)
    (h : hasEditSpan ps = false) : setFirstEditText s ps = ps := by
  induction ps with
  | nil => rfl
  | cons p tl ih =>
      rw [hasEditSpan, List.any_cons] at h
      have hp : isEditPart p = false := by
        cases hx : isEditPart p
        · rfl
        · rw [hx] at h; simp at h
      have htl : hasEditSpan tl = false := by
        rw [hp] at h; simpa [hasEditSpan] using h
      simp [setFirstEditText, hp, ih htl]

theorem headingText_setEditText (s1 s2 : String) (e : HeadingElement) :
    headingText (setElementEditText s1 e) =
      headingText (setElementEditText s2 e) := by
  unfold headingText setElementEditText
  simp only [hasEditSpan_setFirst]
  cases hEdit : hasEditSpan e.parts with
  | true => simp [hEdit, removeFirst_setFirst]
  | false => simp [hEdit, setFirst_no_edit _ _ hEdit]

theorem addParsedHeader_congr (procd : List String) (acc : List ParsedHeader)
    (e1 e2 : HeadingElement) (hl : e1.level = e2.level)
    (ht : headingText e1 = headingText e2) :
    addParsedHeader procd acc e1 = addParsedHeader procd acc e2 := by
  unfold addParsedHeader
  rw [hl, ht]

theorem fold_setEditText (procd : List String) (s1 s2 : String)
    (els : List HeadingElement) :
    ∀ acc : List ParsedHeader,
      (els.map (setElementEditText s1)).foldl (addParsedHeader procd) acc =
        (els.map (setElementEditText s2)).foldl (addParsedHeader procd) acc := by
  induction els with
  | nil => intro acc; rfl
  | cons e tl ih =>
      intro acc
      simp only [List.map_cons, List.foldl_cons]
      rw [addParsedHeader_congr procd acc (setElementEditText s1 e)
        (setElementEditText s2 e) rfl (headingText_setEditText s1 s2 e)]
      exact ih _

theorem loopAux_ok (s : RandomWikipediaArticleSettings)
    (outcomes : Nat → AttemptOutcome) :
    ∀ (fuel retries : Nat) (st : LoopState),
      ∃ r evs n, loopAux s outcomes fuel retries st = Except.ok (r, evs, n) := by
  intro fuel
  induction fuel with
  | zero =>
      intro retries st
      exact ⟨none, [Event.exhaustedNotice s.maxRetries], 0, rfl⟩
  | succ f ih =>
      intro retries st
      cases ho : outcomes retries with
      | titleFetchFailed err =>
          obtain ⟨r, evs, n, hr⟩ := ih (retries + 1) st
          refine ⟨r, Event.fetchingNotice (retries + 1) ::
            Event.parseFailedNotice (retries + 1) :: Event.retryDelay :: evs,
            n + 1, ?_⟩
          simp [loopAux, tryBody, ho, hr]
      | htmlFetchFailed t err =>
          obtain ⟨r, evs, n, hr⟩ := ih (retries + 1)
            { st with articleTitle := t, articleLink := wikiArticleLink t }
          refine ⟨r, Event.fetchingNotice (retries + 1) ::
            Event.parseFailedNotice (retries + 1) :: Event.retryDelay :: evs,
            n + 1, ?_⟩
          simp [loopAux, tryBody, ho, hr]
      | fetched t m =>
          by_cases hsuit :
            s.minHeaders ≤ (parseWikipediaHtml s.disallowedHeaders m).length
          · refine ⟨some ⟨t, wikiArticleLink t, m,
              parseWikipediaHtml s.disallowedHeaders m⟩,
              [Event.fetchingNotice (retries + 1)], 1, ?_⟩
            simp [loopAux, tryBody, ho, hsuit]
          · obtain ⟨r, evs, n, hr⟩ := ih (retries + 1)
              ⟨t, wikiArticleLink t, m, parseWikipediaHtml s.disallowedHeaders m⟩
            refine ⟨r, Event.fetchingNotice (retries + 1) :: evs, n + 1, ?_⟩
            simp [loopAux, tryBody, ho, hsuit, hr]

theorem loopAux_events_ne_nil (s : RandomWikipediaArticleSettings)
    (outcomes : Nat → AttemptOutcome) (fuel retries : Nat) (st : LoopState)
    (r : Option LoopState) (evs : List Event) (n : Nat)
    (h : loopAux s outcomes fuel retries st = Except.ok (r, evs, n)) :
    evs ≠ [] := by
  cases fuel with
  | zero =>
      simp only [loopAux, Except.ok.injEq, Prod.mk.injEq] at h
      obtain ⟨h1, h2, h3⟩ := h
      rw [← h2]
      simp
  | succ f =>
      cases ho : outcomes retries with
      | titleFetchFailed err =>
          obtain ⟨r', evs', n', hr⟩ := loopAux_ok s outcomes f (retries + 1) st
          simp only [loopAux, tryBody, ho, hr, Except.ok.injEq, Prod.mk.injEq] at h
          obtain ⟨h1, h2, h3⟩ := h
          rw [← h2]
          simp
      | htmlFetchFailed t err =>
          obtain ⟨r', evs', n', hr⟩ := loopAux_ok s outcomes f (retries + 1)
            { st with articleTitle := t, articleLink := wikiArticleLink t }
          simp only [loopAux, tryBody, ho, hr, Except.ok.injEq, Prod.mk.injEq] at h
          obtain ⟨h1, h2, h3⟩ := h
          rw [← h2]
          simp
      | fetched t m =>
          by_cases hsuit :
            s.minHeaders ≤ (parseWikipediaHtml s.disallowedHeaders m).length
          · simp only [loopAux, tryBody, ho, hsuit, if_pos, Except.ok.injEq,
              Prod.mk.injEq] at h
            obtain ⟨h1, h2, h3⟩ := h
            rw [← h2]
            simp
          · obtain ⟨r', evs', n', hr⟩ := loopAux_ok s outcomes f (retries + 1)
              ⟨t, wikiArticleLink t, m, parseWikipediaHtml s.disallowedHeaders m⟩
            simp only [loopAux, tryBody, ho, hsuit, if_neg, Except.ok.injEq,
              Prod.mk.injEq] at h
            rw [hr] at h
            simp only [if_false, Except.ok.injEq, Prod.mk.injEq] at h
            obtain ⟨h1, h2, h3⟩ := h
            rw [← h2]
            simp

theorem loopAux_run (s : RandomWikipediaArticleSettings)
    (outcomes : Nat → AttemptOutcome) (t : String) (m : HtmlDoc)
    (hsuit : s.minHeaders ≤ (parseWikipediaHtml s.disallowedHeaders m).length) :
    ∀ (j fuel retries : Nat) (st : LoopState),
      (∀ i, i < j → isFailedOutcome (outcomes (retries + i)) = true) →
      outcomes (retries + j) = AttemptOutcome.fetched t m →
      j < fuel →
      loopAux s outcomes fuel retries st =
        Except.ok (some ⟨t, wikiArticleLink t, m,
            parseWikipediaHtml s.disallowedHeaders m⟩,
          failTrace retries j ++ [Event.fetchingNotice (retries + j + 1)],
          j + 1) := by
  intro j
  induction j with
  | zero =>
      intro fuel retries st hfail hok hlt
      obtain ⟨f, rfl⟩ : ∃ f, fuel = f + 1 := ⟨fuel - 1, by omega⟩
      rw [Nat.add_zero] at hok
      simp [loopAux, tryBody, hok, hsuit, failTrace]
  | succ j ih =>
      intro fuel retries st hfail hok hlt
      obtain ⟨f, rfl⟩ : ∃ f, fuel = f + 1 := ⟨fuel - 1, by omega⟩
      have h0 : isFailedOutcome (outcomes retries) = true := by
        have hx := hfail 0 (by omega)
        rwa [Nat.add_zero] at hx
      have hrec : ∀ st2 : LoopState,
          loopAux s outcomes f (retries + 1) st2 =
            Except.ok (some ⟨t, wikiArticleLink t, m,
                parseWikipediaHtml s.disallowedHeaders m⟩,
              failTrace (retries + 1) j ++
                [Event.fetchingNotice (retries + 1 + j + 1)], j + 1) := by
        intro st2
        refine ih f (retries + 1) st2 ?_ ?_ (by omega)
        · intro i hi
          have hx := hfail (i + 1) (by omega)
          rwa [show retries + (i + 1) = retries + 1 + i by omega] at hx
        · have hx := hok
          rwa [show retries + (j + 1) = retries + 1 + j by omega] at hx
      cases ho : outcomes retries with
      | titleFetchFailed err =>
          simp [loopAux, tryBody, ho, hrec st, failTrace,
            Nat.add_assoc, Nat.add_comm, Nat.add_left_comm]
      | htmlFetchFailed t2 err =>
          simp [loopAux, tryBody, ho,
            hrec { st with articleTitle := t2, articleLink := wikiArticleLink t2 },
            failTrace, Nat.add_assoc, Nat.add_comm, Nat.add_left_comm]
      | fetched t2 m2 =>
          rw [ho] at h0
          simp [isFailedOutcome] at h0

theorem loopAux_sound (s : RandomWikipediaArticleSettings)
    (outcomes : Nat → AttemptOutcome) :
    ∀ (fuel retries : Nat) (st st2 : LoopState) (evs : List Event) (n : Nat),
      loopAux s outcomes fuel retries st = Except.ok (some st2, evs, n) →
      ∃ k t m, outcomes k = AttemptOutcome.fetched t m ∧
        st2 = ⟨t, wikiArticleLink t, m,
          parseWikipediaHtml s.disallowedHeaders m⟩ ∧
        s.minHeaders ≤ (parseWikipediaHtml s.disallowedHeaders m).length := by
  intro fuel
  induction fuel with
  | zero =>
      intro retries st st2 evs n h
      simp [loopAux] at h
  | succ f ih =>
      intro retries st st2 evs n h
      cases ho : outcomes retries with
      | titleFetchFailed err =>
          obtain ⟨r', evs', n', hr⟩ := loopAux_ok s outcomes f (retries + 1) st
          simp only [loopAux, tryBody, ho, hr, Except.ok.injEq, Prod.mk.injEq] at h
          obtain ⟨h1, h2, h3⟩ := h
          rw [h1] at hr
          exact ih (retries + 1) st st2 evs' n' hr
      | htmlFetchFailed t err =>
          obtain ⟨r', evs', n', hr⟩ := loopAux_ok s outcomes f (retries + 1)
            { st with articleTitle := t, articleLink := wikiArticleLink t }
          simp only [loopAux, tryBody, ho, hr, Except.ok.injEq, Prod.mk.injEq] at h
          obtain ⟨h1, h2, h3⟩ := h
          rw [h1] at hr
          exact ih (retries + 1) _ st2 evs' n' hr
      | fetched t m =>
          by_cases hsuit :
            s.minHeaders ≤ (parseWikipediaHtml s.disallowedHeaders m).length
          · simp only [loopAux, tryBody, ho, hsuit, if_pos, Except.ok.injEq,
              Prod.mk.injEq] at h
            obtain ⟨h1, h2, h3⟩ := h
            exact ⟨retries, t, m, ho, (Option.some_inj.mp h1).symm, hsuit⟩
          · obtain ⟨r', evs', n', hr⟩ := loopAux_ok s outcomes f (retries + 1)
              ⟨t, wikiArticleLink t, m, parseWikipediaHtml s.disallowedHeaders m⟩
            simp only [loopAux, tryBody, ho, hsuit, if_neg, Except.ok.injEq,
              Prod.mk.injEq] at h
            rw [hr] at h
            simp only [if_false, Except.ok.injEq, Prod.mk.injEq] at h
            obtain ⟨h1, h2, h3⟩ := h
            rw [h1] at hr
            exact ih (retries + 1) _ st2 evs' n' hr

theorem failTrace_filter_parseFailed (j : Nat) :
    ∀ r : Nat, ((failTrace r j).filter isParseFailedNotice).length = j := by
  induction j with
  | zero => intro r; rfl
  | succ j ih =>
      intro r
      simp [failTrace, List.filter_cons, isParseFailedNotice, ih (r + 1)]

theorem failTrace_filter_fetching (j : Nat) :
    ∀ r : Nat, (failTrace r j).filter isFetchingNotice =
      (List.range j).map (fun i => Event.fetchingNotice (r + i + 1)) := by
  induction j with
  | zero => intro r; rfl
  | succ j ih =>
      intro r
      rw [List.range_succ_eq_map]
      simp only [failTrace, List.filter_cons, isFetchingNotice, if_pos,
        List.map_cons, ite_true, ite_false]
      rw [ih (r + 1), List.map_map]
      have hz : r + 0 + 1 = r + 1 := by omega
      rw [hz]
      refine congrArg (fun l => Event.fetchingNotice (r + 1) :: l) ?_
      refine List.map_congr_left ?_
      intro i hi
      show Event.fetchingNotice (r + 1 + i + 1) = Event.fetchingNotice (r + (i + 1) + 1)
      congr 1
      omega

/-- C1: for every exclusion configuration string and every parsed document,
the heading records returned by `parseWikipediaHtml` contain no two records
with the same `(level, text)` pair, and contain no record whose lower-cased
text is a member of the processed exclusion set. -/
theorem c1_extract_nodup_and_not_excluded (disallowedHeaders : String)
    (doc : HtmlDoc) :
    ((parseWikipediaHtml disallowedHeaders doc).map
        (fun h => (h.level, h.text))).Nodup ∧
      ∀ h ∈ parseWikipediaHtml disallowedHeaders doc,
        strToLower h.text ∉ getProcessedDisallowedHeaders disallowedHeaders := by
  unfold parseWikipediaHtml
  exact parse_fold_inv (getProcessedDisallowedHeaders disallowedHeaders) _ []
    (by simp) (by simp)

/-- C2: for every configuration, every stream of per-attempt fetch outcomes
(failures of either network call, unsuitable articles, successes) and every
acceptance date, `fetchAndProcessRandomWikipediaArticle` never surfaces an
error (`Except.error`): it always resolves with `Except.ok`, whose payload
is either an article record or the explicit no-result value `none`. -/
theorem c2_loop_never_raises (s : RandomWikipediaArticleSettings)
    (outcomes : Nat → AttemptOutcome) (today : String) :
    ∃ (result : Option ArticleData) (evs : List Event) (n : Nat),
      fetchAndProcessRandomWikipediaArticle s outcomes today =
        Except.ok (result, evs, n) := by
  obtain ⟨r, evs, n, hr⟩ :=
    loopAux_ok s outcomes s.maxRetries 0 ⟨"", "", ⟨none, []⟩, []⟩
  cases r with
  | none =>
      exact ⟨none, evs, n, by simp [fetchAndProcessRandomWikipediaArticle, hr]⟩
  | some st =>
      exact ⟨some ⟨st.articleTitle, st.articleLink, st.parsedHeaders, today⟩,
        evs, n, by simp [fetchAndProcessRandomWikipediaArticle, hr]⟩

/-- C3: with `maxRetries = 0` the acquisition loop guard fails immediately:
the loop returns the no-result value after zero loop-body executions, i.e.
without invoking the fetch stage even once, emitting only the terminal
exhaustion notice. -/
theorem c3_zero_max_retries_no_fetch (minHeaders : Nat)
    (disallowedHeaders noteFolder today : String)
    (outcomes : Nat → AttemptOutcome) :
    fetchAndProcessRandomWikipediaArticle
        ⟨minHeaders, 0, disallowedHeaders, noteFolder⟩ outcomes today =
      Except.ok (none, [Event.exhaustedNotice 0], 0) := rfl

/-- C4 (counterexample): at the spec's own example candidate the claim that
no heading line other than the per-record ones follows the title heading is
false: the rendered body's heading-marker lines are the title line, the
fixed `## Sections:` line, and then the record line — not just the title
line followed by the record line. -/
theorem c4_counterexample_sections_line :
    (strLines (formatMarkdown
        ⟨"Foo", "https://en.wikipedia.org/wiki/Foo", [⟨2, "History"⟩],
          "2024-01-01"⟩
        "2024-01-01 00:00:00")).filter isHeadingLine =
      ["# Foo #wikipedia", "## Sections:", "## History"] ∧
    (strLines (formatMarkdown
        ⟨"Foo", "https://en.wikipedia.org/wiki/Foo", [⟨2, "History"⟩],
          "2024-01-01"⟩
        "2024-01-01 00:00:00")).filter isHeadingLine ≠
      ["# Foo #wikipedia", "## History"] := by
  constructor
  · decide
  · decide

/-- C4 (amended): for every candidate whose title, link, heading texts and
timestamp are newline-free, the rendered body's lines are exactly: the fixed
front matter with the constant tag marker, the timestamp line, the related
topics line, the link line, the title heading — and then, when headings are
present, a blank line, the fixed `## Sections:` heading line, and one
heading line per record whose marker length equals the record's level, each
followed by a blank line (the `## Sections:` line being the only extra
heading line between the title heading and the per-record lines); with no
headings, the fixed placeholder line appears instead. -/
theorem c4_amended_render_line_structure (a : ArticleData) (dt : String)
    (hT : Char.ofNat 10 ∉ a.title.data) (hL : Char.ofNat 10 ∉ a.link.data)
    (hD : Char.ofNat 10 ∉ dt.data)
    (hH : ∀ h ∈ a.headers, Char.ofNat 10 ∉ h.text.data) :
    strLines (formatMarkdown a dt) =
      ["---", "tags: wikipedia", "---", "", dt, "**Related Topics**:",
       "**Link**: " ++ a.link, "# " ++ a.title ++ " #wikipedia"] ++
      (if a.headers.length > 0 then
        ["", "## Sections:"] ++
          a.headers.bind (fun h => [hashMarker h.level ++ " " ++ h.text, ""]) ++
          ["", ""]
      else
        ["", "No significant sections found for this article.", "", "", ""]) :=
  strLines_formatMarkdown a dt hT hL hD hH

theorem c4_amended_witness :
    (Char.ofNat 10 ∉ ("Foo" : String).data) ∧
    (Char.ofNat 10 ∉ ("https://en.wikipedia.org/wiki/Foo" : String).data) ∧
    (Char.ofNat 10 ∉ ("2024-01-01 00:00:00" : String).data) ∧
    (∀ h ∈ ([⟨2, "History"⟩] : List ParsedHeader),
      Char.ofNat 10 ∉ h.text.data) ∧
    strLines (formatMarkdown
        ⟨"Foo", "https://en.wikipedia.org/wiki/Foo", [⟨2, "History"⟩],
          "2024-01-01"⟩
        "2024-01-01 00:00:00") =
      ["---", "tags: wikipedia", "---", "", "2024-01-01 00:00:00",
       "**Related Topics**:", "**Link**: " ++ "https://en.wikipedia.org/wiki/Foo",
       "# " ++ "Foo" ++ " #wikipedia", "", "## Sections:",
       hashMarker 2 ++ " " ++ "History", "", "", ""] :=
  ⟨by decide, by decide, by decide, by decide, by
    have hmain := c4_amended_render_line_structure
      ⟨"Foo", "https://en.wikipedia.org/wiki/Foo", [⟨2, "History"⟩],
        "2024-01-01"⟩
      "2024-01-01 00:00:00" (by decide) (by decide) (by decide) (by decide)
    simpa using hmain⟩

theorem isHeadingLine_link (l : String) :
    isHeadingLine ("**Link**: " ++ l) = false := by
  obtain ⟨d⟩ := l
  rfl

theorem isHeadingLine_title (t : String) :
    isHeadingLine ("# " ++ t ++ " #wikipedia") = true := by
  obtain ⟨d⟩ := t
  rfl

/-- C5: for every candidate with an empty heading sequence (and newline-free
title, link and timestamp, the timestamp not itself carrying a heading
marker), the rendered body contains the fixed "no sections found"
placeholder line, and the only line carrying a heading marker is the
mandatory title heading — no section heading lines appear. -/
theorem c5_empty_headings_placeholder (a : ArticleData) (dt : String)
    (hT : Char.ofNat 10 ∉ a.title.data) (hL : Char.ofNat 10 ∉ a.link.data)
    (hD : Char.ofNat 10 ∉ dt.data) (hDh : isHeadingLine dt = false)
    (hempty : a.headers = []) :
    "No significant sections found for this article." ∈
        strLines (formatMarkdown a dt) ∧
      (strLines (formatMarkdown a dt)).filter isHeadingLine =
        ["# " ++ a.title ++ " #wikipedia"] := by
  have hmain := strLines_formatMarkdown a dt hT hL hD
    (by rw [hempty]; intro h hh; simp at hh)
  rw [hempty] at hmain
  simp only [List.length_nil, gt_iff_lt, lt_self_iff_false, if_false] at hmain
  rw [hmain]
  constructor
  · simp
  · have g1 : isHeadingLine "---" = false := by decide
    have g2 : isHeadingLine "tags: wikipedia" = false := by decide
    have g3 : isHeadingLine "" = false := by decide
    have g4 : isHeadingLine "**Related Topics**:" = false := by decide
    have g5 : isHeadingLine "No significant sections found for this article." =
        false := by decide
    simp [List.filter_cons, g1, g2, g3, g4, g5, hDh, isHeadingLine_link,
      isHeadingLine_title]

theorem c5_witness :
    (Char.ofNat 10 ∉ ("Foo" : String).data) ∧
    (Char.ofNat 10 ∉ ("https://en.wikipedia.org/wiki/Foo" : String).data) ∧
    (Char.ofNat 10 ∉ ("2024-01-01 00:00:00" : String).data) ∧
    isHeadingLine "2024-01-01 00:00:00" = false ∧
    "No significant sections found for this article." ∈
        strLines (formatMarkdown
          ⟨"Foo", "https://en.wikipedia.org/wiki/Foo", [], "2024-01-01"⟩
          "2024-01-01 00:00:00") ∧
      (strLines (formatMarkdown
          ⟨"Foo", "https://en.wikipedia.org/wiki/Foo", [], "2024-01-01"⟩
          "2024-01-01 00:00:00")).filter isHeadingLine =
        ["# " ++ "Foo" ++ " #wikipedia"] :=
  ⟨by decide, by decide, by decide, by decide,
    (c5_empty_headings_placeholder
      ⟨"Foo", "https://en.wikipedia.org/wiki/Foo", [], "2024-01-01"⟩
      "2024-01-01 00:00:00" (by decide) (by decide) (by decide) (by decide)
      rfl).1,
    (c5_empty_headings_placeholder
      ⟨"Foo", "https://en.wikipedia.org/wiki/Foo", [], "2024-01-01"⟩
      "2024-01-01 00:00:00" (by decide) (by decide) (by decide) (by decide)
      rfl).2⟩

/-- C6: the acquisition loop's acceptance test is exactly the length
comparison: whenever at least one attempt is allowed and the first attempt
fetches markup `m`, the loop accepts on that first attempt (returning the
candidate built from it, with a single fetching notice and a single
fetch-stage invocation) if and only if the extracted heading count is at
least `minHeaders`.  The test itself is pure: it contributes no event and
cannot fail. -/
theorem c6_acceptance_iff_length (minHeaders mr : Nat)
    (disallowedHeaders noteFolder today t : String) (m : HtmlDoc)
    (outcomes : Nat → AttemptOutcome)
    (h0 : outcomes 0 = AttemptOutcome.fetched t m) :
    fetchAndProcessRandomWikipediaArticle
        ⟨minHeaders, mr + 1, disallowedHeaders, noteFolder⟩ outcomes today =
      Except.ok (some ⟨t, wikiArticleLink t,
          parseWikipediaHtml disallowedHeaders m, today⟩,
        [Event.fetchingNotice 1], 1) ↔
      minHeaders ≤ (parseWikipediaHtml disallowedHeaders m).length := by
  constructor
  · intro heq
    by_contra hsuit
    obtain ⟨r, evs, n, hr⟩ := loopAux_ok
      ⟨minHeaders, mr + 1, disallowedHeaders, noteFolder⟩ outcomes mr 1
      ⟨t, wikiArticleLink t, m, parseWikipediaHtml disallowedHeaders m⟩
    have hne := loopAux_events_ne_nil
      ⟨minHeaders, mr + 1, disallowedHeaders, noteFolder⟩ outcomes mr 1 _
      r evs n hr
    have hstep : loopAux
        ⟨minHeaders, mr + 1, disallowedHeaders, noteFolder⟩ outcomes (mr + 1) 0
        ⟨"", "", ⟨none, []⟩, []⟩ =
        Except.ok (r, Event.fetchingNotice 1 :: evs, n + 1) := by
      simp [loopAux, tryBody, h0, hsuit, hr]
    rw [show fetchAndProcessRandomWikipediaArticle
        ⟨minHeaders, mr + 1, disallowedHeaders, noteFolder⟩ outcomes today =
        match loopAux ⟨minHeaders, mr + 1, disallowedHeaders, noteFolder⟩
            outcomes (mr + 1) 0 ⟨"", "", ⟨none, []⟩, []⟩ with
          | Except.ok (some st, evs2, n2) =>
              Except.ok (some ⟨st.articleTitle, st.articleLink,
                st.parsedHeaders, today⟩, evs2, n2)
          | Except.ok (none, evs2, n2) => Except.ok (none, evs2, n2)
          | Except.error e => Except.error e from rfl, hstep] at heq
    cases r with
    | none => simp at heq
    | some st =>
        simp only [Except.ok.injEq, Prod.mk.injEq, Option.some.injEq] at heq
        obtain ⟨h1, h2, h3⟩ := heq
        have : evs = [] := by
          have := congrArg List.tail h2
          simpa using this
        exact hne this
  · intro hsuit
    have hrun := loopAux_run
      ⟨minHeaders, mr + 1, disallowedHeaders, noteFolder⟩ outcomes t m hsuit
      0 (mr + 1) 0 ⟨"", "", ⟨none, []⟩, []⟩
      (by intro i hi; omega) (by simpa using h0) (by omega)
    simp [fetchAndProcessRandomWikipediaArticle, hrun, failTrace]

theorem c6_witness :
    ((fun _ : Nat => AttemptOutcome.fetched "T"
        (⟨some [⟨2, [ContentPart.text "History"]⟩], []⟩ : HtmlDoc)) 0 =
      AttemptOutcome.fetched "T"
        (⟨some [⟨2, [ContentPart.text "History"]⟩], []⟩ : HtmlDoc)) ∧
    (fetchAndProcessRandomWikipediaArticle ⟨1, 1, "", ""⟩
        (fun _ => AttemptOutcome.fetched "T"
          (⟨some [⟨2, [ContentPart.text "History"]⟩], []⟩ : HtmlDoc))
        "2024-01-01" =
      Except.ok (some ⟨"T", wikiArticleLink "T",
          parseWikipediaHtml ""
            (⟨some [⟨2, [ContentPart.text "History"]⟩], []⟩ : HtmlDoc),
          "2024-01-01"⟩,
        [Event.fetchingNotice 1], 1) ↔
      1 ≤ (parseWikipediaHtml ""
        (⟨some [⟨2, [ContentPart.text "History"]⟩], []⟩ : HtmlDoc)).length) :=
  ⟨rfl, c6_acceptance_iff_length 1 0 "" "" "2024-01-01" "T"
    (⟨some [⟨2, [ContentPart.text "History"]⟩], []⟩ : HtmlDoc)
    (fun _ => AttemptOutcome.fetched "T"
      (⟨some [⟨2, [ContentPart.text "History"]⟩], []⟩ : HtmlDoc)) rfl⟩

/-- C7: if every fetch attempt completes without error and yields markup
whose extracted heading count reaches `minHeaders`, then — as soon as the
retry budget allows at least one attempt — the loop accepts and returns the
candidate of the first attempt: one fetch-stage invocation, one fetching
notice, no error notice. -/
theorem c7_all_suitable_first_attempt (minHeaders mr : Nat)
    (disallowedHeaders noteFolder today : String)
    (outcomes : Nat → AttemptOutcome)
    (hall : ∀ i, ∃ t m, outcomes i = AttemptOutcome.fetched t m ∧
      minHeaders ≤ (parseWikipediaHtml disallowedHeaders m).length) :
    ∃ t m, outcomes 0 = AttemptOutcome.fetched t m ∧
      fetchAndProcessRandomWikipediaArticle
          ⟨minHeaders, mr + 1, disallowedHeaders, noteFolder⟩ outcomes today =
        Except.ok (some ⟨t, wikiArticleLink t,
            parseWikipediaHtml disallowedHeaders m, today⟩,
          [Event.fetchingNotice 1], 1) := by
  obtain ⟨t, m, h0, hsuit⟩ := hall 0
  refine ⟨t, m, h0, ?_⟩
  have hrun := loopAux_run
    ⟨minHeaders, mr + 1, disallowedHeaders, noteFolder⟩ outcomes t m hsuit
    0 (mr + 1) 0 ⟨"", "", ⟨none, []⟩, []⟩
    (by intro i hi; omega) (by simpa using h0) (by omega)
  simp [fetchAndProcessRandomWikipediaArticle, hrun, failTrace]

theorem c7_witness :
    ∃ t m, (fun _ : Nat => AttemptOutcome.fetched "T"
        (⟨some [⟨2, [ContentPart.text "History"]⟩], []⟩ : HtmlDoc)) 0 =
        AttemptOutcome.fetched t m ∧
      fetchAndProcessRandomWikipediaArticle ⟨0, 1, "", ""⟩
          (fun _ => AttemptOutcome.fetched "T"
            (⟨some [⟨2, [ContentPart.text "History"]⟩], []⟩ : HtmlDoc))
          "2024-01-01" =
        Except.ok (some ⟨t, wikiArticleLink t,
            parseWikipediaHtml "" m, "2024-01-01"⟩,
          [Event.fetchingNotice 1], 1) :=
  c7_all_suitable_first_attempt 0 0 "" "" "2024-01-01"
    (fun _ => AttemptOutcome.fetched "T"
      (⟨some [⟨2, [ContentPart.text "History"]⟩], []⟩ : HtmlDoc))
    (fun _ => ⟨"T", ⟨some [⟨2, [ContentPart.text "History"]⟩], []⟩,
      rfl, Nat.zero_le _⟩)

/-- C8: for every `k` with `1 ≤ k ≤ maxRetries`, if the first `k - 1`
attempts each fail with an error and the `k`-th attempt fetches suitable
markup, the loop runs exactly `k` loop-body executions, its trace announces
the attempts with fetching notices numbered `1 … k` in order, and it emits
exactly `k - 1` per-attempt error notices (each failed attempt also waits
out the fixed retry delay). -/
theorem c8_k_attempts_k_minus_one_errors (minHeaders mr k : Nat)
    (disallowedHeaders noteFolder today t : String) (m : HtmlDoc)
    (outcomes : Nat → AttemptOutcome)
    (hk1 : 1 ≤ k) (hkm : k ≤ mr)
    (hfail : ∀ i, i < k - 1 → isFailedOutcome (outcomes i) = true)
    (hok : outcomes (k - 1) = AttemptOutcome.fetched t m)
    (hsuit : minHeaders ≤ (parseWikipediaHtml disallowedHeaders m).length) :
    fetchAndProcessRandomWikipediaArticle
        ⟨minHeaders, mr, disallowedHeaders, noteFolder⟩ outcomes today =
      Except.ok (some ⟨t, wikiArticleLink t,
          parseWikipediaHtml disallowedHeaders m, today⟩,
        failTrace 0 (k - 1) ++ [Event.fetchingNotice k], k) ∧
    ((failTrace 0 (k - 1) ++ [Event.fetchingNotice k]).filter
        isParseFailedNotice).length = k - 1 ∧
    (failTrace 0 (k - 1) ++ [Event.fetchingNotice k]).filter isFetchingNotice =
      (List.range k).map (fun i => Event.fetchingNotice (i + 1)) := by
  obtain ⟨j, rfl⟩ : ∃ j, k = j + 1 := ⟨k - 1, by omega⟩
  have hj : j + 1 - 1 = j := by omega
  rw [hj] at hfail hok ⊢
  refine ⟨?_, ?_, ?_⟩
  · have hrun := loopAux_run
      ⟨minHeaders, mr, disallowedHeaders, noteFolder⟩ outcomes t m hsuit
      j mr 0 ⟨"", "", ⟨none, []⟩, []⟩
      (by intro i hi; simpa using hfail i hi) (by simpa using hok) (by omega)
    simp only [Nat.zero_add] at hrun
    simp [fetchAndProcessRandomWikipediaArticle, hrun]
  · rw [List.filter_append, List.length_append,
      failTrace_filter_parseFailed j 0]
    simp [isParseFailedNotice]
  · rw [List.filter_append, failTrace_filter_fetching j 0,
      List.range_succ, List.map_append]
    simp [isFetchingNotice]

theorem c8_witness :
    (1 ≤ 2) ∧ (2 ≤ 2) ∧
    (∀ i, i < 2 - 1 → isFailedOutcome
      ((fun n : Nat => if n = 0 then AttemptOutcome.titleFetchFailed "boom"
        else AttemptOutcome.fetched "T"
          (⟨some [⟨2, [ContentPart.text "History"]⟩], []⟩ : HtmlDoc)) i) = true) ∧
    ((fun n : Nat => if n = 0 then AttemptOutcome.titleFetchFailed "boom"
        else AttemptOutcome.fetched "T"
          (⟨some [⟨2, [ContentPart.text "History"]⟩], []⟩ : HtmlDoc)) (2 - 1) =
      AttemptOutcome.fetched "T"
        (⟨some [⟨2, [ContentPart.text "History"]⟩], []⟩ : HtmlDoc)) ∧
    fetchAndProcessRandomWikipediaArticle ⟨1, 2, "", ""⟩
        (fun n => if n = 0 then AttemptOutcome.titleFetchFailed "boom"
          else AttemptOutcome.fetched "T"
            (⟨some [⟨2, [ContentPart.text "History"]⟩], []⟩ : HtmlDoc))
        "2024-01-01" =
      Except.ok (some ⟨"T", wikiArticleLink "T",
          parseWikipediaHtml ""
            (⟨some [⟨2, [ContentPart.text "History"]⟩], []⟩ : HtmlDoc),
          "2024-01-01"⟩,
        failTrace 0 (2 - 1) ++ [Event.fetchingNotice 2], 2) :=
  ⟨by decide, by decide, by decide, by decide,
    (c8_k_attempts_k_minus_one_errors 1 2 2 "" "" "2024-01-01" "T"
      (⟨some [⟨2, [ContentPart.text "History"]⟩], []⟩ : HtmlDoc)
      (fun n => if n = 0 then AttemptOutcome.titleFetchFailed "boom"
        else AttemptOutcome.fetched "T"
          (⟨some [⟨2, [ContentPart.text "History"]⟩], []⟩ : HtmlDoc))
      (by decide) (by decide) (by decide) (by decide) (by decide)).1⟩

/-- C9: the text inside a heading's edit-affordance span
(`.mw-editsection`) can never reach the extracted records: the extractor
removes that span and re-extracts the trimmed text before the exclusion and
duplicate rules run, so replacing the edit span's text by anything — in
particular by the empty string — leaves `parseWikipediaHtml` output
unchanged on every document. -/
theorem c9_edit_text_never_leaks (disallowedHeaders : String) (doc : HtmlDoc)
    (s1 s2 : String) :
    parseWikipediaHtml disallowedHeaders (setDocEditText s1 doc) =
      parseWikipediaHtml disallowedHeaders (setDocEditText s2 doc) := by
  unfold parseWikipediaHtml setDocEditText
  cases hp : doc.parserOutput with
  | none =>
      simp only [hp, Option.map_none]
      exact fold_setEditText _ s1 s2 doc.allHeadings []
  | some els =>
      simp only [hp, Option.map_some]
      exact fold_setEditText _ s1 s2 els []

/-- C10: whenever the acquisition loop resolves with an article record, all
fields of that record come from one single accepting attempt: some attempt
fetched exactly the record's title together with markup whose extraction is
the record's headings, the link is the Wikipedia URL built from the
URI-encoded title, the heading count meets `minHeaders`, and the date stamp
is the acceptance-time date.  Nothing fetched by an earlier failed attempt
survives into the record. -/
theorem c10_result_fields_from_accepting_attempt
    (s : RandomWikipediaArticleSettings) (outcomes : Nat → AttemptOutcome)
    (today : String) (a : ArticleData) (evs : List Event) (n : Nat)
    (h : fetchAndProcessRandomWikipediaArticle s outcomes today =
      Except.ok (some a, evs, n)) :
    ∃ k m, outcomes k = AttemptOutcome.fetched a.title m ∧
      a.link = wikiArticleLink a.title ∧
      a.headers = parseWikipediaHtml s.disallowedHeaders m ∧
      s.minHeaders ≤ a.headers.length ∧
      a.dateStamp = today := by
  obtain ⟨r, evs2, n2, hr⟩ :=
    loopAux_ok s outcomes s.maxRetries 0 ⟨"", "", ⟨none, []⟩, []⟩
  rw [show fetchAndProcessRandomWikipediaArticle s outcomes today =
      match loopAux s outcomes s.maxRetries 0 ⟨"", "", ⟨none, []⟩, []⟩ with
        | Except.ok (some st, evs3, n3) =>
            Except.ok (some ⟨st.articleTitle, st.articleLink,
              st.parsedHeaders, today⟩, evs3, n3)
        | Except.ok (none, evs3, n3) => Except.ok (none, evs3, n3)
        | Except.error e => Except.error e from rfl, hr] at h
  cases r with
  | none => simp at h
  | some st =>
      simp only [Except.ok.injEq, Prod.mk.injEq, Option.some.injEq] at h
      obtain ⟨ha, hevs, hn⟩ := h
      obtain ⟨k, t, m, hk, hst, hsuit⟩ :=
        loopAux_sound s outcomes s.maxRetries 0 _ st evs2 n2 hr
      refine ⟨k, m, ?_, ?_, ?_, ?_, ?_⟩
      · rw [← ha, hst]
        exact hk
      · rw [← ha, hst]
      · rw [← ha, hst]
      · rw [← ha, hst]
        exact hsuit
      · rw [← ha]

theorem c10_witness :
    (fetchAndProcessRandomWikipediaArticle ⟨1, 1, "", ""⟩
        (fun _ => AttemptOutcome.fetched "T"
          (⟨some [⟨2, [ContentPart.text "History"]⟩], []⟩ : HtmlDoc))
        "2024-01-01" =
      Except.ok (some ⟨"T", wikiArticleLink "T", [⟨2, "History"⟩],
        "2024-01-01"⟩, [Event.fetchingNotice 1], 1)) ∧
    (∃ k m, (fun _ : Nat => AttemptOutcome.fetched "T"
        (⟨some [⟨2, [ContentPart.text "History"]⟩], []⟩ : HtmlDoc)) k =
          AttemptOutcome.fetched
            (ArticleData.title ⟨"T", wikiArticleLink "T", [⟨2, "History"⟩],
              "2024-01-01"⟩) m ∧
      ArticleData.link ⟨"T", wikiArticleLink "T", [⟨2, "History"⟩],
          "2024-01-01"⟩ =
        wikiArticleLink (ArticleData.title ⟨"T", wikiArticleLink "T",
          [⟨2, "History"⟩], "2024-01-01"⟩) ∧
      ArticleData.headers ⟨"T", wikiArticleLink "T", [⟨2, "History"⟩],
          "2024-01-01"⟩ = parseWikipediaHtml ""
        m ∧
      1 ≤ (ArticleData.headers ⟨"T", wikiArticleLink "T", [⟨2, "History"⟩],
        "2024-01-01"⟩).length ∧
      ArticleData.dateStamp ⟨"T", wikiArticleLink "T", [⟨2, "History"⟩],
        "2024-01-01"⟩ = "2024-01-01") :=
  ⟨by decide,
    c10_result_fields_from_accepting_attempt ⟨1, 1, "", ""⟩
      (fun _ => AttemptOutcome.fetched "T"
        (⟨some [⟨2, [ContentPart.text "History"]⟩], []⟩ : HtmlDoc))
      "2024-01-01"
      ⟨"T", wikiArticleLink "T", [⟨2, "History"⟩], "2024-01-01"⟩
      [Event.fetchingNotice 1] 1 (by decide)⟩

end RandomWiki
